import Mathlib

/-!
Verification of the deterministic validation-report core of the
integration-contract-validator repository (src/app.py, src/ai_layer.py).

The Python source is embedded shallowly:

* JSON values are the inductive `ICV.JSON` (numbers restricted to integers,
  the only kind appearing in the claims).
* Python dicts produced by `json.loads` are association lists in insertion
  order with unique keys; lookup is first-match.
* Fallible Python code (raising `TypeError` and friends) is embedded as
  `Option`-returning functions, `none` meaning the exception escapes.
* The third-party JSON Schema engine (`jsonschema.Draft202012Validator`)
  is out of the repository; it is modelled from the spec, restricted to the
  keywords exercised by the claims (see `ICV.iterErrors`).
-/

namespace ICV

/-- JSON values as parsed by `json.loads`.  Numbers are restricted to
integers (every number appearing in the repository and the claims is an
integer); object fields are kept in insertion order with unique keys. -/
inductive JSON where
  | null
  | bool (b : Bool)
  | num (n : Int)
  | str (s : String)
  | arr (elems : List JSON)
  | obj (fields : List (String × JSON))

/-- First-match lookup in an association list, modelling Python
`dict.get(k)` (keys of a parsed dict are unique, so first match is the
match). -/
def getKey (fields : List (String × JSON)) (k : String) : Option JSON :=
  match fields with
  | [] => none
  | (k2, v) :: rest => if k2 = k then some v else getKey rest k

/-- Python `d[k] = v` on a dict: replaces the value in place if the key
exists (keeping its insertion position), otherwise appends. -/
def upsert (k : String) (v : JSON) : List (String × JSON) → List (String × JSON)
  | [] => [(k, v)]
  | (k2, v2) :: rest => if k2 = k then (k2, v) :: rest else (k2, v2) :: upsert k v rest

/-- Python `d.setdefault(k, v)`: inserts `(k, v)` at the end only when the
key is absent. -/
def setdefault (fields : List (String × JSON)) (k : String) (v : JSON) :
    List (String × JSON) :=
  if (getKey fields k).isSome then fields else fields ++ [(k, v)]

/-- One element of Python `dict(x)` when `x` is a sequence of pairs: a
two-element list `[k, v]` with a string key, or a two-character string
(Python iterates a length-2 string into key/value characters).  Pair
sequences with non-string hashable keys would also succeed in Python but
produce dicts that are not JSON objects; they are outside this model and
no claim exercises them. -/
def pyPairOf : JSON → Option (String × JSON)
  | JSON.arr [JSON.str k, v] => some (k, v)
  | JSON.str s =>
      match s.data with
      | [c1, c2] => some (String.mk [c1], JSON.str (String.mk [c2]))
      | _ => none
  | _ => none

/-- Models Python `dict(x)` applied to a JSON value: a dict is shallow
copied; a sequence of recognizable pairs builds a dict; the empty string
iterates to nothing and yields an empty dict; every other JSON value
(booleans, numbers, null, non-empty ordinary strings) makes `dict()` raise
`TypeError` or `ValueError`, modelled as `none`. -/
def pyDict : JSON → Option (List (String × JSON))
  | JSON.obj fields => some fields
  | JSON.arr xs => pyDictPairsAcc [] xs
  | JSON.str s => if s = "" then some [] else none
  | _ => none
where
  /-- Left fold of pairs with in-place overwrite, matching Python dict
  construction order. -/
  pyDictPairsAcc (acc : List (String × JSON)) : List JSON → Option (List (String × JSON))
    | [] => some acc
    | x :: rest =>
        match pyPairOf x with
        | none => none
        | some (k, v) => pyDictPairsAcc (upsert k v acc) rest

/-- `_build_validator`'s schema rewrite, src/app.py lines 57-64: when
`strict` is set, shallow-copy the schema with `dict(schema)` (which raises
for non-dict values, hence `Option`), and if the copy's `type` field
equals `"object"`, `setdefault` its `additionalProperties` to `False`;
when `strict` is unset, return the schema untouched. -/
def rewriteStrict (schema : JSON) (strict : Bool) : Option JSON :=
  if strict then
    match pyDict schema with
    | none => none
    | some fields =>
        let isObjType : Bool :=
          match getKey fields "type" with
          | some (JSON.str s) => s = "object"
          | _ => false
        if isObjType then
          some (JSON.obj (setdefault fields "additionalProperties" (JSON.bool false)))
        else
          some (JSON.obj fields)
  else
    some schema

/-- One segment of an error path as produced by the validation engine:
either an array index (a Python `int`, always non-negative) or a property
name (a Python `str`). -/
inductive Seg where
  | idx (n : Nat)
  | prop (s : String)
deriving DecidableEq

/-- Three-way comparison of naturals, as Python compares ints. -/
def natCmp (m n : Nat) : Ordering :=
  if m < n then .lt else if m = n then .eq else .gt

/-- Generic lexicographic comparison of lists from a base comparator:
this is exactly how Python compares two lists (and two strings, viewed as
their character lists) — first differing element decides, a strict prefix
compares less. -/
def lexCmp (c : α → α → Ordering) : List α → List α → Ordering
  | [], [] => .eq
  | [], _ :: _ => .lt
  | _ :: _, [] => .gt
  | a :: as, b :: bs =>
      match c a b with
      | .eq => lexCmp c as bs
      | o => o

/-- Three-way comparison of characters by code point, as Python does. -/
def charCmp (a b : Char) : Ordering := natCmp a.toNat b.toNat

/-- Three-way comparison of strings: code-point lexicographic, as Python
compares `str` values. -/
def strCmp (s t : String) : Ordering := lexCmp charCmp s.data t.data

/-- Python comparison of two path segments, partial because Python raises
`TypeError` when ordering an `int` against a `str` (equality between them
is just `False`, so the first differing mixed pair is where `<` raises). -/
def segCmpP : Seg → Seg → Option Ordering
  | .idx m, .idx n => some (natCmp m n)
  | .prop s, .prop t => some (strCmp s t)
  | _, _ => none

/-- Totalized segment comparison used to run the sort once every pair in
the input has been checked comparable: it agrees with `segCmpP` whenever
the latter is defined, and arbitrarily puts indices before property names
on the (never actually compared) mixed pairs. -/
def segCmpT : Seg → Seg → Ordering
  | .idx m, .idx n => natCmp m n
  | .idx _, .prop _ => .lt
  | .prop _, .idx _ => .gt
  | .prop s, .prop t => strCmp s t

/-- Python comparison of two path key lists (`list(e.path)`), partial at
mixed-type first differences. -/
def pathCmpP : List Seg → List Seg → Option Ordering
  | [], [] => some .eq
  | [], _ :: _ => some .lt
  | _ :: _, [] => some .gt
  | a :: as, b :: bs =>
      match segCmpP a b with
      | none => none
      | some .eq => pathCmpP as bs
      | some o => some o

/-- Totalized path comparison (lexicographic over `segCmpT`). -/
def pathCmpT : List Seg → List Seg → Ordering := lexCmp segCmpT

theorem natCmp_swap (m n : Nat) : natCmp n m = (natCmp m n).swap := by
  unfold natCmp
  split_ifs <;> first | rfl | omega

theorem natCmp_eq_iff (m n : Nat) : natCmp m n = .eq ↔ m = n := by
  unfold natCmp
  split_ifs with h1 h2
  · simp only [reduceCtorEq, false_iff]
    omega
  · simp [h2]
  · simp only [reduceCtorEq, false_iff]
    omega

theorem natCmp_lt_iff (m n : Nat) : natCmp m n = .lt ↔ m < n := by
  unfold natCmp
  split_ifs with h1 h2
  · simp [h1]
  · simp only [reduceCtorEq, false_iff]
    omega
  · simp only [reduceCtorEq, false_iff]
    omega

theorem charCmp_swap (a b : Char) : charCmp b a = (charCmp a b).swap :=
  natCmp_swap a.toNat b.toNat

theorem charCmp_eq_iff (a b : Char) : charCmp a b = .eq ↔ a = b := by
  unfold charCmp
  rw [natCmp_eq_iff]
  constructor
  · intro h
    exact Char.eq_of_val_eq (UInt32.ext h)
  · intro h
    rw [h]

theorem charCmp_lt_trans {a b c : Char} (h1 : charCmp a b = .lt)
    (h2 : charCmp b c = .lt) : charCmp a c = .lt := by
  unfold charCmp at h1 h2 ⊢
  rw [natCmp_lt_iff] at h1 h2 ⊢
  omega

theorem lexCmp_swap {α : Type} (c : α → α → Ordering)
    (hswap : ∀ a b, c b a = (c a b).swap) :
    ∀ p q, lexCmp c q p = (lexCmp c p q).swap := by
  intro p
  induction p with
  | nil =>
      intro q
      cases q <;> rfl
  | cons a as ih =>
      intro q
      cases q with
      | nil => rfl
      | cons b bs =>
          simp only [lexCmp]
          rw [hswap a b]
          cases h : c a b <;> simp [Ordering.swap, ih bs]

theorem lexCmp_eq_iff {α : Type} (c : α → α → Ordering)
    (heq : ∀ a b, c a b = .eq ↔ a = b) :
    ∀ p q, lexCmp c p q = .eq ↔ p = q := by
  intro p
  induction p with
  | nil =>
      intro q
      cases q <;> simp [lexCmp]
  | cons a as ih =>
      intro q
      cases q with
      | nil => simp [lexCmp]
      | cons b bs =>
          simp only [lexCmp]
          cases h : c a b with
          | eq =>
              rw [(heq a b).mp h]
              simp [ih bs]
          | lt =>
              have : a ≠ b := fun hab => by
                rw [hab] at h
                rw [(heq b b).mpr rfl] at h
                exact Ordering.noConfusion h
              simp [this]
          | gt =>
              have : a ≠ b := fun hab => by
                rw [hab] at h
                rw [(heq b b).mpr rfl] at h
                exact Ordering.noConfusion h
              simp [this]

theorem lexCmp_lt_trans {α : Type} (c : α → α → Ordering)
    (heq : ∀ a b, c a b = .eq ↔ a = b)
    (htr : ∀ {a b d : α}, c a b = .lt → c b d = .lt → c a d = .lt) :
    ∀ p q r, lexCmp c p q = .lt → lexCmp c q r = .lt → lexCmp c p r = .lt := by
  intro p
  induction p with
  | nil =>
      intro q r h1 h2
      cases q with
      | nil => exact h2
      | cons b bs =>
          cases r with
          | nil => exact absurd h2 (by simp [lexCmp])
          | cons d ds => rfl
  | cons a as ih =>
      intro q r h1 h2
      cases q with
      | nil => exact absurd h1 (by simp [lexCmp])
      | cons b bs =>
          cases r with
          | nil => exact absurd h2 (by simp [lexCmp])
          | cons d ds =>
              simp only [lexCmp] at h1 h2 ⊢
              cases hab : c a b with
              | gt => rw [hab] at h1; exact absurd h1 (by simp)
              | lt =>
                  cases hbd : c b d with
                  | gt => rw [hbd] at h2; exact absurd h2 (by simp)
                  | lt => rw [htr hab hbd]
                  | eq =>
                      rw [(heq b d).mp hbd] at hab
                      rw [hab]
              | eq =>
                  have hab2 := (heq a b).mp hab
                  subst hab2
                  rw [(heq a a).mpr rfl] at h1
                  cases hbd : c a d with
                  | gt => rw [hbd] at h2; exact Ordering.noConfusion h2
                  | lt => rfl
                  | eq => rw [hbd] at h2; exact ih bs ds h1 h2

theorem strCmp_swap (s t : String) : strCmp t s = (strCmp s t).swap :=
  lexCmp_swap charCmp charCmp_swap s.data t.data

theorem strCmp_eq_iff (s t : String) : strCmp s t = .eq ↔ s = t := by
  unfold strCmp
  rw [lexCmp_eq_iff charCmp charCmp_eq_iff]
  constructor
  · exact String.ext
  · intro h
    rw [h]

theorem strCmp_lt_trans {s t u : String} (h1 : strCmp s t = .lt)
    (h2 : strCmp t u = .lt) : strCmp s u = .lt :=
  lexCmp_lt_trans charCmp charCmp_eq_iff (fun hab hbd => charCmp_lt_trans hab hbd)
    s.data t.data u.data h1 h2

theorem segCmpT_swap (a b : Seg) : segCmpT b a = (segCmpT a b).swap := by
  cases a <;> cases b
  · exact natCmp_swap _ _
  · rfl
  · rfl
  · exact strCmp_swap _ _

theorem segCmpT_eq_iff (a b : Seg) : segCmpT a b = .eq ↔ a = b := by
  cases a <;> cases b <;> simp only [segCmpT]
  · rw [natCmp_eq_iff]; simp
  · simp
  · simp
  · rw [strCmp_eq_iff]; simp

theorem segCmpT_lt_trans {a b d : Seg} (h1 : segCmpT a b = .lt)
    (h2 : segCmpT b d = .lt) : segCmpT a d = .lt := by
  cases a <;> cases b <;> cases d <;> simp only [segCmpT] at h1 h2 ⊢
  all_goals first
    | rfl
    | exact Ordering.noConfusion h1
    | exact Ordering.noConfusion h2
    | (rw [natCmp_lt_iff] at h1 h2 ⊢; omega)
    | exact strCmp_lt_trans h1 h2

theorem pathCmpT_swap (p q : List Seg) : pathCmpT q p = (pathCmpT p q).swap :=
  lexCmp_swap segCmpT segCmpT_swap p q

theorem pathCmpT_eq_iff (p q : List Seg) : pathCmpT p q = .eq ↔ p = q :=
  lexCmp_eq_iff segCmpT segCmpT_eq_iff p q

theorem pathCmpT_lt_trans {p q r : List Seg} (h1 : pathCmpT p q = .lt)
    (h2 : pathCmpT q r = .lt) : pathCmpT p r = .lt :=
  lexCmp_lt_trans segCmpT segCmpT_eq_iff
    (fun hab hbd => segCmpT_lt_trans hab hbd) p q r h1 h2

/-- The partial (Python) segment comparison agrees with the totalized one
wherever it is defined. -/
theorem segCmpP_agrees (a b : Seg) (o : Ordering) (h : segCmpP a b = some o) :
    segCmpT a b = o := by
  cases a <;> cases b <;> simp only [segCmpP, segCmpT] at h ⊢
  · exact Option.some.inj h
  · exact Option.noConfusion h
  · exact Option.noConfusion h
  · exact Option.some.inj h

/-- The partial (Python) path comparison agrees with the totalized one
wherever it is defined. -/
theorem pathCmpP_agrees : ∀ p q o, pathCmpP p q = some o → pathCmpT p q = o := by
  intro p
  induction p with
  | nil =>
      intro q o h
      cases q <;> exact (Option.some.inj h).symm ▸ rfl
  | cons a as ih =>
      intro q o h
      cases q with
      | nil => exact (Option.some.inj h).symm ▸ rfl
      | cons b bs =>
          simp only [pathCmpP] at h
          simp only [pathCmpT, lexCmp]
          cases hs : segCmpP a b with
          | none => rw [hs] at h; exact Option.noConfusion h
          | some o2 =>
              rw [hs] at h
              rw [segCmpP_agrees a b o2 hs]
              cases o2 with
              | eq => exact ih bs o h
              | lt => exact Option.some.inj h
              | gt => exact Option.some.inj h

/-- The duck-typed error object handed out by the validation engine
(`jsonschema.exceptions.ValidationError`), restricted to the attributes
the repository reads: `message`, `path`, `schema_path`, `validator`,
`validator_value` and `instance` (the latter named `inst` here because
`instance` is a Lean keyword). -/
structure RawError where
  message : String
  path : List Seg
  schema_path : List Seg
  validator : String
  validator_value : JSON
  inst : JSON

/-- The key order used by `sorted(..., key=lambda e: list(e.path))` once
every pair of keys is known to be comparable: ascending by totalized path
comparison. -/
abbrev rle (a b : RawError) : Prop := pathCmpT a.path b.path ≠ Ordering.gt

instance : DecidableRel rle := fun a b =>
  inferInstanceAs (Decidable (pathCmpT a.path b.path ≠ Ordering.gt))

instance : IsTotal RawError rle := by
  constructor
  intro a b
  by_cases h : pathCmpT a.path b.path = Ordering.gt
  · right
    rw [rle, pathCmpT_swap, h]
    simp [Ordering.swap]
  · left
    exact h

/-- Weak order facts for `rle`: being `≤` in the totalized comparison is
being `<` or equal. -/
theorem pathCmpT_ne_gt_iff (p q : List Seg) :
    pathCmpT p q ≠ Ordering.gt ↔ (pathCmpT p q = Ordering.lt ∨ p = q) := by
  cases h : pathCmpT p q <;> simp_all
  · exact (pathCmpT_eq_iff p q).mp h
  · intro hpq
    rw [hpq, (pathCmpT_eq_iff q q).mpr rfl] at h
    exact Ordering.noConfusion h

instance : IsTrans RawError rle := by
  constructor
  intro a b c hab hbc
  rw [rle, pathCmpT_ne_gt_iff] at hab hbc ⊢
  rcases hab with hab | hab
  · rcases hbc with hbc | hbc
    · exact Or.inl (pathCmpT_lt_trans hab hbc)
    · rw [hbc] at hab
      exact Or.inl hab
  · rw [hab]
    exact hbc

/-- True when Python may sort this error list by path without raising:
every pair of path keys is comparable (`list.__lt__` only raises on the
first differing segment pair when the two segments have different types). -/
def comparableAll (l : List RawError) : Bool :=
  l.all fun a => l.all fun b => (pathCmpP a.path b.path).isSome

/-- The issue-ordering step of the report builder, src/app.py line 107:
`sorted(validator.iter_errors(payload), key=lambda e: list(e.path))`.
Python compares the path key lists lazily and raises `TypeError` as soon
as it actually compares an `int` segment against a `str` segment; a raise
is modelled as `none`.  The model is conservative in one corner: Python
raises only when an incomparable pair is actually compared during the
sort, while this model fails whenever any pair of the input is
incomparable.  For a two-element input the two keys are always compared,
so the model and Python agree there, and they agree on every input whose
key pairs are all comparable (which includes every error list produced by
validating a single payload). -/
def sortErrors (l : List RawError) : Option (List RawError) :=
  if comparableAll l then some (List.insertionSort rle l) else none

theorem sortErrors_sorted {l out : List RawError} (h : sortErrors l = some out) :
    List.Sorted rle out := by
  unfold sortErrors at h
  split at h
  · rw [← Option.some.inj h]
    exact List.sorted_insertionSort rle l
  · exact Option.noConfusion h

theorem sortErrors_perm {l out : List RawError} (h : sortErrors l = some out) :
    out.Perm l := by
  unfold sortErrors at h
  split at h
  · rw [← Option.some.inj h]
    exact List.perm_insertionSort rle l
  · exact Option.noConfusion h

/-- Re-roots an error produced one level down: prepends the instance path
segment leading there and the schema path segments of the keyword, the
way the engine accumulates `err.path` and `err.schema_path`. -/
def reRoot (p : Seg) (sp : List Seg) (e : RawError) : RawError :=
  { e with path := p :: e.path, schema_path := sp ++ e.schema_path }

/-- Draft 2020-12 primitive type test (`integer` and `number` coincide here
because the embedding restricts JSON numbers to integers). -/
def typeMatches (t : String) (v : JSON) : Bool :=
  match t, v with
  | "object", JSON.obj _ => true
  | "array", JSON.arr _ => true
  | "string", JSON.str _ => true
  | "integer", JSON.num _ => true
  | "number", JSON.num _ => true
  | "boolean", JSON.bool _ => true
  | "null", JSON.null => true
  | _, _ => false

/-- Errors of the `type` keyword: the keyword value is a type name or a
list of type names; a non-matching instance yields one error. -/
def typeKeywordErrors (v inst : JSON) : List RawError :=
  match v with
  | JSON.str t =>
      if typeMatches t inst then []
      else [⟨"instance is not of the expected type", [], [Seg.prop "type"], "type", v, inst⟩]
  | JSON.arr ts =>
      if ts.any fun tj => match tj with | JSON.str t => typeMatches t inst | _ => false then []
      else [⟨"instance is not of any expected type", [], [Seg.prop "type"], "type", v, inst⟩]
  | _ => []

/-- Errors of the `required` keyword: one error per declared name missing
from an object instance (the keyword only applies to objects). -/
def requiredErrors (v inst : JSON) : List RawError :=
  match v, inst with
  | JSON.arr names, JSON.obj ifields =>
      names.flatMap fun nm =>
        match nm with
        | JSON.str name =>
            if (getKey ifields name).isSome then []
            else [⟨name ++ " is a required property", [], [Seg.prop "required"], "required", v, inst⟩]
        | _ => []
  | _, _ => []

/-- Errors of the `minItems` keyword on array instances. -/
def minItemsErrors (v inst : JSON) : List RawError :=
  match v, inst with
  | JSON.num n, JSON.arr elems =>
      if (elems.length : Int) < n then
        [⟨"array is too short", [], [Seg.prop "minItems"], "minItems", v, inst⟩]
      else []
  | _, _ => []

/-- Errors of the `maxItems` keyword on array instances. -/
def maxItemsErrors (v inst : JSON) : List RawError :=
  match v, inst with
  | JSON.num n, JSON.arr elems =>
      if (elems.length : Int) > n then
        [⟨"array is too long", [], [Seg.prop "maxItems"], "maxItems", v, inst⟩]
      else []
  | _, _ => []

/-- Modelled from the spec: the external JSON Schema validation engine
(`jsonschema.Draft202012Validator.iter_errors`), which the repository
treats as a third-party collaborator and whose code is not under src/.
Per spec §4.2 it collects every raw validation error exhaustively, walking
the schema keywords in their dict order; it is modelled here restricted to
the keywords the claims exercise: `type`, `required`, `properties`,
`additionalProperties`, `minItems`, `maxItems`, `items` (2020-12 form:
one subschema applied to every element).  Unknown keywords yield no
errors, as in the real engine.  `fuel` bounds the recursion depth; every
recursive call descends into a strict subvalue of the instance, so any
fuel of at least the instance depth (e.g. `sizeOf inst`) is enough and the
zero-fuel branch is unreachable from `iterErrors`. -/
def iterErrorsF : Nat → JSON → JSON → List RawError
  | 0, _, _ => []
  | fuel+1, schema, inst =>
      match schema with
      | JSON.bool true => []
      | JSON.bool false =>
          [⟨"False schema does not allow the instance", [], [], "", JSON.null, inst⟩]
      | JSON.obj sfields =>
          sfields.flatMap fun kv =>
            let k := kv.1
            let v := kv.2
            if k = "type" then typeKeywordErrors v inst
            else if k = "required" then requiredErrors v inst
            else if k = "minItems" then minItemsErrors v inst
            else if k = "maxItems" then maxItemsErrors v inst
            else if k = "properties" then
              match v, inst with
              | JSON.obj props, JSON.obj ifields =>
                  props.flatMap fun pkv =>
                    match getKey ifields pkv.1 with
                    | some child =>
                        (iterErrorsF fuel pkv.2 child).map
                          (reRoot (Seg.prop pkv.1) [Seg.prop "properties", Seg.prop pkv.1])
                    | none => []
              | _, _ => []
            else if k = "additionalProperties" then
              match inst with
              | JSON.obj ifields =>
                  let props : List (String × JSON) :=
                    match getKey sfields "properties" with
                    | some (JSON.obj props) => props
                    | _ => []
                  let extras := ifields.filter fun ikv => (getKey props ikv.1).isNone
                  match v with
                  | JSON.bool false =>
                      if extras.isEmpty then []
                      else
                        [⟨"Additional properties are not allowed", [],
                          [Seg.prop "additionalProperties"], "additionalProperties", v, inst⟩]
                  | JSON.bool true => []
                  | sub =>
                      extras.flatMap fun ikv =>
                        (iterErrorsF fuel sub ikv.2).map
                          (reRoot (Seg.prop ikv.1) [Seg.prop "additionalProperties"])
              | _ => []
            else if k = "items" then
              match inst with
              | JSON.arr elems =>
                  elems.enum.flatMap fun ic =>
                    (iterErrorsF fuel v ic.2).map (reRoot (Seg.idx ic.1) [Seg.prop "items"])
              | _ => []
            else []
      | _ => []

mutual

/-- Executable size of a JSON value, used as the fuel bound for the
engine: it strictly dominates the nesting depth. -/
def jsize : JSON → Nat
  | JSON.null => 1
  | JSON.bool _ => 1
  | JSON.num _ => 1
  | JSON.str _ => 1
  | JSON.arr xs => 1 + jsizeL xs
  | JSON.obj fs => 1 + jsizeF fs

/-- Size of a list of JSON values. -/
def jsizeL : List JSON → Nat
  | [] => 0
  | x :: rest => jsize x + jsizeL rest

/-- Size of a JSON object field list. -/
def jsizeF : List (String × JSON) → Nat
  | [] => 0
  | (_, v) :: rest => jsize v + jsizeF rest

end

/-- The engine entry point: `validator.iter_errors(payload)`.  The fuel
`jsize inst` strictly dominates the instance depth, so the recursion
never exhausts it. -/
def iterErrors (schema inst : JSON) : List RawError :=
  iterErrorsF (jsize inst) schema inst

/-- `str(p)` on a path segment. -/
def segStr : Seg → String
  | .idx n => toString n
  | .prop s => s

/-- `sep.join(str(p) for p in segs)`. -/
def joinSegs (sep : String) (p : List Seg) : String :=
  String.intercalate sep (p.map segStr)

/-- `_format_issue`, src/app.py lines 66-83: normalizes a raw engine error
into the issue dict with exactly the six keys of the source dict literal,
rendering the data path dot-joined and the schema path slash-joined, the
empty sequences (falsy in Python) yielding the empty string. -/
def formatIssue (e : RawError) : JSON :=
  JSON.obj [
    ("message", JSON.str e.message),
    ("path", JSON.str (if e.path.isEmpty then "" else joinSegs "." e.path)),
    ("schema_path", JSON.str (if e.schema_path.isEmpty then "" else joinSegs "/" e.schema_path)),
    ("validator", JSON.str e.validator),
    ("expected", e.validator_value),
    ("invalid_value", e.inst)
  ]

/-- Field access on a JSON object value. -/
def jsonGet : JSON → String → Option JSON
  | JSON.obj fields, k => getKey fields k
  | _, _ => none

/-- The key list of a JSON object value. -/
def objKeys : JSON → List String
  | JSON.obj fields => fields.map Prod.fst
  | _ => []

/-- The validation report assembled by the validate branch,
src/app.py lines 87-110. -/
structure Report where
  pass : Bool
  issue_count : Nat
  issues : List JSON

/-- The deterministic report builder, src/app.py lines 105-110 (spec §4.2
`build_report`): effective schema via the strict rewrite, exhaustive
engine errors sorted by path key, each normalized by `_format_issue`;
`issue_count` is the length of the issue list and `pass` is
`issue_count == 0`.  A raise anywhere (strict rewrite of a non-dict
schema, sort hitting an incomparable key pair) aborts with no report,
as the surrounding try/except does. -/
def buildReport (schema payload : JSON) (strict : Bool) : Option Report :=
  match rewriteStrict schema strict with
  | none => none
  | some eff =>
      match sortErrors (iterErrors eff payload) with
      | none => none
      | some errs =>
          let issues := errs.map formatIssue
          some { pass := issues.length == 0, issue_count := issues.length, issues := issues }

/-- `AI_OUTPUT_SCHEMA`, src/ai_layer.py lines 5-43, verbatim as a JSON
value (the guardrail schema the app validates the model response against,
src/app.py line 144). -/
def aiOutputSchema : JSON :=
  JSON.obj [
    ("type", JSON.str "object"),
    ("additionalProperties", JSON.bool false),
    ("required", JSON.arr [JSON.str "summary", JSON.str "top_issues",
      JSON.str "suggested_fixes", JSON.str "risk_notes"]),
    ("properties", JSON.obj [
      ("summary", JSON.obj [("type", JSON.str "string")]),
      ("top_issues", JSON.obj [
        ("type", JSON.str "array"),
        ("minItems", JSON.num 1),
        ("items", JSON.obj [
          ("type", JSON.str "object"),
          ("additionalProperties", JSON.bool false),
          ("required", JSON.arr [JSON.str "path", JSON.str "explanation",
            JSON.str "severity", JSON.str "business_impact"]),
          ("properties", JSON.obj [
            ("path", JSON.obj [("type", JSON.str "string")]),
            ("explanation", JSON.obj [("type", JSON.str "string")]),
            ("severity", JSON.obj [("type", JSON.str "string"),
              ("enum", JSON.arr [JSON.str "low", JSON.str "medium", JSON.str "high"])]),
            ("business_impact", JSON.obj [("type", JSON.str "string")])
          ])
        ])
      ]),
      ("suggested_fixes", JSON.obj [
        ("type", JSON.str "array"),
        ("items", JSON.obj [
          ("type", JSON.str "object"),
          ("additionalProperties", JSON.bool false),
          ("required", JSON.arr [JSON.str "target", JSON.str "suggestion"]),
          ("properties", JSON.obj [
            ("target", JSON.obj [("type", JSON.str "string")]),
            ("suggestion", JSON.obj [("type", JSON.str "string")])
          ])
        ])
      ]),
      ("risk_notes", JSON.obj [
        ("type", JSON.str "array"),
        ("items", JSON.obj [("type", JSON.str "string")])
      ])
    ])
  ]

/-- Python `str(v)` as used inside the f-string `payload:/...`: identity
on strings, decimal on ints, `True`/`False`/`None` on the constants.
`str()` of a list or dict succeeds in Python with a repr-style text;
containers are not modelled (`none`) and no claim puts a container in the
`field` slot. -/
def pyStrOf : JSON → Option String
  | JSON.str s => some s
  | JSON.num n => some (toString n)
  | JSON.bool true => some "True"
  | JSON.bool false => some "False"
  | JSON.null => some "None"
  | _ => none

/-- Python slicing `x[:n]`: characters of a string, elements of a list;
subscripting any other value raises `TypeError` (`none`). -/
def pySliceTake (n : Nat) : JSON → Option JSON
  | JSON.str s => some (JSON.str (String.mk (s.data.take n)))
  | JSON.arr xs => some (JSON.arr (xs.take n))
  | _ => none

/-- One entry of the fallback list comprehension, src/ai_layer.py line 114:
builds the suggested-fixes object from an element `f` of `fixes`.
A non-dict element makes `f.get` raise `AttributeError` (`none`). -/
def reshapeFix (f : JSON) : Option JSON :=
  match f with
  | JSON.obj ffields =>
      let fieldv := (getKey ffields "field").getD (JSON.str "")
      let actionv := (getKey ffields "action").getD (JSON.str "")
      match pyStrOf fieldv with
      | none => none
      | some fs =>
          some (JSON.obj [("target", JSON.str ("payload:/" ++ fs)),
            ("suggestion", actionv)])
  | _ => none

/-- The post-parse reconciliation of `call_openai_for_explanation`,
src/ai_layer.py lines 108-120: when the parsed dict lacks `summary` but
carries `explanation`, rebuild the canonical shape (summary = explanation
truncated to 240 characters, empty `top_issues`, each `{field, action}`
fix mapped to a suggested-fixes entry, empty `risk_notes`); otherwise the
dict passes through unchanged.  The `in` tests on a non-dict parse differ
by type in Python (membership, substring, or `TypeError`) and are not
modelled (`none`); iterating a non-list `fixes` raises on its first
element and is modelled as failure (the empty-dict and empty-string
corners, which Python iterates to nothing, are not modelled). -/
def adaptResponse (data : JSON) : Option JSON :=
  match data with
  | JSON.obj fields =>
      if !(getKey fields "summary").isSome && (getKey fields "explanation").isSome then
        match pySliceTake 240 ((getKey fields "explanation").getD (JSON.str "")) with
        | none => none
        | some sliced =>
            match (getKey fields "fixes").getD (JSON.arr []) with
            | JSON.arr fs =>
                match fs.mapM reshapeFix with
                | none => none
                | some fixed =>
                    some (JSON.obj [("summary", sliced), ("top_issues", JSON.arr []),
                      ("suggested_fixes", JSON.arr fixed), ("risk_notes", JSON.arr [])])
            | _ => none
      else some data
  | _ => none

/-- A store of Python dicts, for stating the frame property of the strict
rewrite: addresses are indices, each cell is one top-level dict.  The
rewrite touches only top-level keys, so nested values need no cells. -/
abbrev Store := List (List (String × JSON))

/-- `_build_validator`'s schema rewrite again, src/app.py lines 57-64, but
on an explicit store so that mutation and aliasing are observable: the
schema lives at address `a`; with `strict` set, `dict(schema)` allocates a
fresh cell with a shallow copy and `setdefault` mutates only that fresh
cell; with `strict` unset, the original address is returned and the store
is untouched. -/
def rewriteStrictHeap (σ : Store) (a : Nat) (strict : Bool) :
    Option (Store × Nat) :=
  match σ.get? a with
  | none => none
  | some fields =>
      if strict then
        let isObjType : Bool :=
          match getKey fields "type" with
          | some (JSON.str s) => s = "object"
          | _ => false
        let fields2 :=
          if isObjType then setdefault fields "additionalProperties" (JSON.bool false)
          else fields
        some (σ ++ [fields2], σ.length)
      else
        some (σ, a)

/-! Concrete inputs used by individual claims. -/

/-- The schema of the strict-mode scenario (spec §8). -/
def c2Schema : JSON :=
  JSON.obj [("type", JSON.str "object"),
    ("properties", JSON.obj [("x", JSON.obj [("type", JSON.str "string")])])]

/-- The payload of the strict-mode scenario: declared `x`, undeclared `y`. -/
def c2Payload : JSON := JSON.obj [("x", JSON.str "ok"), ("y", JSON.num 1)]

/-- The raw model response of the fallback scenario (spec §8). -/
def c3Raw : JSON :=
  JSON.obj [("explanation", JSON.str "bad email"),
    ("fixes", JSON.arr [JSON.obj [("field", JSON.str "email"),
      ("action", JSON.str "use valid format")]])]

/-- The canonical object the fallback is specified to produce. -/
def c3Reshaped : JSON :=
  JSON.obj [("summary", JSON.str "bad email"), ("top_issues", JSON.arr []),
    ("suggested_fixes", JSON.arr [JSON.obj [("target", JSON.str "payload:/email"),
      ("suggestion", JSON.str "use valid format")]]),
    ("risk_notes", JSON.arr [])]

/-- An error whose path key starts with an int segment. -/
def c4eIdx : RawError := ⟨"m1", [Seg.idx 0], [], "type", JSON.null, JSON.null⟩

/-- An error whose path key starts with a str segment. -/
def c4eProp : RawError := ⟨"m2", [Seg.prop "a"], [], "type", JSON.null, JSON.null⟩

/-- A comparable error pair, out of order, for the amended-sort witness. -/
def c4wB : RawError := ⟨"m3", [Seg.prop "b"], [], "type", JSON.null, JSON.null⟩

/-- Second element of the comparable witness pair. -/
def c4wA : RawError := ⟨"m4", [Seg.prop "a"], [], "type", JSON.null, JSON.null⟩

/-- The non-override schema: the strict-mode schema with an explicit
`additionalProperties: true`. -/
def c6Schema : JSON :=
  JSON.obj [("type", JSON.str "object"),
    ("properties", JSON.obj [("x", JSON.obj [("type", JSON.str "string")])]),
    ("additionalProperties", JSON.bool true)]

/-- The payload of the non-override scenario (same as the strict one). -/
def c6Payload : JSON := JSON.obj [("x", JSON.str "ok"), ("y", JSON.num 1)]

/-- An error at structural path a.b, for the prefix-ordering witness. -/
def c7eAB : RawError :=
  ⟨"array is too long", [Seg.prop "a", Seg.prop "b"], [], "maxItems", JSON.null, JSON.null⟩

/-- An error at structural path a.b.0. -/
def c7eAB0 : RawError :=
  ⟨"wrong type", [Seg.prop "a", Seg.prop "b", Seg.idx 0], [], "type", JSON.null, JSON.null⟩

/-- A one-cell store holding one schema dict, for the frame witness. -/
def c9Store : Store := [[("type", JSON.str "object")]]

/-- The store after the strict rewrite: the original cell untouched, the
mutated copy appended. -/
def c9Store2 : Store :=
  [[("type", JSON.str "object")],
   [("type", JSON.str "object"), ("additionalProperties", JSON.bool false)]]

/-! The claims. -/

/-- C1: whenever report building succeeds, the report satisfies
`issue_count = length issues` and `pass = (issue_count == 0)`; in
particular `pass` is true iff the issues list is empty. -/
theorem buildReport_pass_count_consistent (schema payload : JSON) (strict : Bool)
    (r : Report) (h : buildReport schema payload strict = some r) :
    r.issue_count = r.issues.length ∧ (r.pass = true ↔ r.issues = []) ∧
      r.pass = (r.issue_count == 0) := by
  unfold buildReport at h
  cases hrw : rewriteStrict schema strict with
  | none => rw [hrw] at h; exact Option.noConfusion h
  | some eff =>
      rw [hrw] at h
      dsimp only at h
      cases hs : sortErrors (iterErrors eff payload) with
      | none => rw [hs] at h; exact Option.noConfusion h
      | some errs =>
          rw [hs] at h
          dsimp only at h
          rw [← Option.some.inj h]
          refine ⟨rfl, ?_, rfl⟩
          simp [List.length_eq_zero]

/-- Witness for C1 at a concrete schema/payload pair. -/
theorem buildReport_pass_count_consistent_witness :
    (Report.mk true 0 []).issue_count = (Report.mk true 0 []).issues.length ∧
      ((Report.mk true 0 []).pass = true ↔ (Report.mk true 0 []).issues = []) ∧
      (Report.mk true 0 []).pass = ((Report.mk true 0 []).issue_count == 0) :=
  buildReport_pass_count_consistent (JSON.obj []) JSON.null false (Report.mk true 0 []) rfl

/-- C2: for the strict-mode scenario schema and payload, strict validation
fails with exactly one issue whose `validator` is `additionalProperties`,
and non-strict validation passes. -/
theorem strict_mode_flags_additional_property :
    (∃ issue, buildReport c2Schema c2Payload true = some (Report.mk false 1 [issue]) ∧
      jsonGet issue "validator" = some (JSON.str "additionalProperties")) ∧
    buildReport c2Schema c2Payload false = some (Report.mk true 0 []) :=
  ⟨⟨_, rfl, rfl⟩, rfl⟩

/-- C3: the fallback reshapes the alternate model response exactly as the
spec says, but the reshaped object then FAILS the recognized output
schema: its empty `top_issues` violates the schema's `minItems: 1`, so the
guardrail validation raises and AI assist fails.  The claim (and spec §8)
say it validates successfully; the code contradicts the stated purpose of
its own fallback. -/
theorem fallback_reshape_fails_guardrail :
    adaptResponse c3Raw = some c3Reshaped ∧
    (iterErrors aiOutputSchema c3Reshaped).map RawError.validator = ["minItems"] :=
  ⟨rfl, rfl⟩

/-- C4 counterexample: sorting two errors whose path keys differ on an int
versus str first segment does not terminate normally with a stringified
fallback comparison — Python raises `TypeError` (modelled as `none`). -/
theorem sort_mixed_segment_paths_raises :
    sortErrors [c4eIdx, c4eProp] = none := rfl

/-- C4 (amended): when every pair of error path keys is comparable (first
differing segments always share a type — true of every error list the
engine produces from one payload), the ordering step succeeds, permutes
the input, and orders it ascending under the Python path comparison:
strict prefixes first, numeric segments numerically, property names
lexicographically.  Mixed-type comparisons instead raise. -/
theorem sortErrors_sorts_when_pairwise_comparable (l : List RawError)
    (h : comparableAll l = true) :
    ∃ out, sortErrors l = some out ∧ out.Perm l ∧
      ∀ (i j : Fin out.length), i < j →
        pathCmpP (out.get i).path (out.get j).path ≠ some Ordering.gt := by
  have hall : ∀ a ∈ l, ∀ b ∈ l, (pathCmpP a.path b.path).isSome = true := by
    unfold comparableAll at h
    rw [List.all_eq_true] at h
    intro a ha b hb
    have h1 := h a ha
    rw [List.all_eq_true] at h1
    exact h1 b hb
  refine ⟨List.insertionSort rle l, ?_, List.perm_insertionSort rle l, ?_⟩
  · unfold sortErrors
    rw [if_pos h]
  · intro i j hij hgt
    have hsorted := List.sorted_insertionSort rle l
    have hr := hsorted.rel_get_of_lt hij
    have hperm := List.perm_insertionSort rle l
    have hmi : (List.insertionSort rle l).get i ∈ l :=
      hperm.subset (List.get_mem _ i.1 i.2)
    have hmj : (List.insertionSort rle l).get j ∈ l :=
      hperm.subset (List.get_mem _ j.1 j.2)
    have hsome := hall _ hmi _ hmj
    obtain ⟨o, ho⟩ := Option.isSome_iff_exists.mp hsome
    rw [ho] at hgt
    have hagree := pathCmpP_agrees _ _ _ ho
    rw [Option.some.inj hgt] at hagree
    exact hr hagree

/-- Witness for C4 (amended) on a comparable two-element input. -/
theorem sortErrors_sorts_when_pairwise_comparable_witness :
    comparableAll [c4wB, c4wA] = true ∧
    ∃ out, sortErrors [c4wB, c4wA] = some out ∧ out.Perm [c4wB, c4wA] ∧
      ∀ (i j : Fin out.length), i < j →
        pathCmpP (out.get i).path (out.get j).path ≠ some Ordering.gt :=
  ⟨rfl, sortErrors_sorts_when_pairwise_comparable [c4wB, c4wA] rfl⟩

/-- C5 counterexample: with strict set, the rewriter applied to the JSON
value `true` (a legal JSON schema) raises — `dict(True)` is a
`TypeError` — contradicting the claim that any JSON value is accepted
without error conditions. -/
theorem rewriteStrict_raises_on_bool_schema :
    rewriteStrict (JSON.bool true) true = none := rfl

/-- C5 (amended): the rewriter never fails when strict is false (the
schema is returned unchanged, whatever JSON value it is), and never fails
on a JSON object schema under either flag; but with strict set, a
non-object schema value such as a boolean makes the `dict()` copy raise. -/
theorem rewriteStrict_succeeds_nonstrict_and_objects :
    (∀ schema, rewriteStrict schema false = some schema) ∧
    (∀ fields strict, (rewriteStrict (JSON.obj fields) strict).isSome = true) := by
  constructor
  · intro schema
    rfl
  · intro fields strict
    cases strict with
    | false => rfl
    | true =>
        show (rewriteStrict (JSON.obj fields) true).isSome = true
        unfold rewriteStrict
        dsimp only [pyDict]
        split
        · split <;> rfl
        · rfl

/-- C6: an `additionalProperties` policy already present in the schema is
preserved by strict mode — the rewrite is the identity on the non-override
schema — and the undeclared-property payload still passes under strict. -/
theorem strict_mode_preserves_explicit_policy :
    rewriteStrict c6Schema true = some c6Schema ∧
    buildReport c6Schema c6Payload true = some (Report.mk true 0 []) :=
  ⟨rfl, rfl⟩

/-- C7: in any successfully sorted error list, an error at structural path
a.b comes strictly before an error at structural path a.b.0 — a strict
path prefix precedes its extensions. -/
theorem sorted_prefix_path_precedes_extension (l out : List RawError)
    (i j : Fin out.length) (hsort : sortErrors l = some out)
    (hi : (out.get i).path = [Seg.prop "a", Seg.prop "b"])
    (hj : (out.get j).path = [Seg.prop "a", Seg.prop "b", Seg.idx 0]) :
    i < j := by
  have hsorted := sortErrors_sorted hsort
  rcases lt_trichotomy i j with h | h | h
  · exact h
  · exfalso
    rw [h] at hi
    rw [hi] at hj
    exact absurd hj (by simp)
  · exfalso
    have hr := hsorted.rel_get_of_lt h
    have hr2 : pathCmpT (out.get j).path (out.get i).path ≠ Ordering.gt := hr
    rw [hi, hj] at hr2
    exact hr2 rfl

/-- Witness for C7 on a concrete out-of-order pair. -/
theorem sorted_prefix_path_precedes_extension_witness :
    (⟨0, by decide⟩ : Fin ([c7eAB, c7eAB0] : List RawError).length) < ⟨1, by decide⟩ :=
  sorted_prefix_path_precedes_extension [c7eAB0, c7eAB] [c7eAB, c7eAB0]
    ⟨0, by decide⟩ ⟨1, by decide⟩ rfl rfl rfl

/-- C8: the normalizer renders the data path by stringifying the segments
and joining with a dot, the schema path joined with a slash, and an empty
segment sequence yields the empty string for the field. -/
theorem formatIssue_join_rule (e : RawError) :
    jsonGet (formatIssue e) "path" = some (JSON.str (joinSegs "." e.path)) ∧
    jsonGet (formatIssue e) "schema_path" = some (JSON.str (joinSegs "/" e.schema_path)) ∧
    jsonGet (formatIssue { e with path := [], schema_path := [] }) "path" =
      some (JSON.str "") ∧
    jsonGet (formatIssue { e with path := [], schema_path := [] }) "schema_path" =
      some (JSON.str "") := by
  obtain ⟨m, p, sp, va, vv, iv⟩ := e
  refine ⟨?_, ?_, rfl, rfl⟩
  · cases p <;> rfl
  · cases sp <;> rfl

/-- C9: the strict rewrite never mutates the caller's schema — every cell
that existed before the call reads back unchanged (the rewrite mutates at
most a fresh copy) — and with strict unset it returns the very same store
and address, no copy made. -/
theorem rewriteStrictHeap_frame (σ σ2 : Store) (a a2 : Nat) (strict : Bool)
    (h : rewriteStrictHeap σ a strict = some (σ2, a2)) :
    (∀ i, i < σ.length → σ2[i]? = σ[i]?) ∧
    (strict = false → σ2 = σ ∧ a2 = a) := by
  unfold rewriteStrictHeap at h
  cases hg : σ.get? a with
  | none => rw [hg] at h; exact Option.noConfusion h
  | some fields =>
      rw [hg] at h
      cases strict with
      | false =>
          have hp := Option.some.inj h
          have hσ : σ = σ2 := congrArg Prod.fst hp
          have ha : a = a2 := congrArg Prod.snd hp
          subst hσ
          subst ha
          exact ⟨fun i _ => rfl, fun _ => ⟨rfl, rfl⟩⟩
      | true =>
          have hp := Option.some.inj h
          have hσ : σ ++ _ = σ2 := congrArg Prod.fst hp
          constructor
          · intro i hilt
            rw [← hσ]
            exact List.getElem?_append_left hilt
          · intro hfalse
            exact Bool.noConfusion hfalse

/-- Witness for C9 at a concrete one-cell store under strict. -/
theorem rewriteStrictHeap_frame_witness :
    (∀ i, i < c9Store.length → c9Store2[i]? = c9Store[i]?) ∧
    (true = false → c9Store2 = c9Store ∧ 1 = 0) :=
  rewriteStrictHeap_frame c9Store c9Store2 0 1 true rfl

/-- C10: every issue record carries exactly the six keys `message`,
`path`, `schema_path`, `validator`, `expected`, `invalid_value`, in the
order of the source dict literal; in particular `expected` and
`invalid_value` are always present, carrying whatever the engine supplied
(possibly null). -/
theorem formatIssue_exact_keys (e : RawError) :
    objKeys (formatIssue e) =
      ["message", "path", "schema_path", "validator", "expected", "invalid_value"] ∧
    jsonGet (formatIssue e) "expected" = some e.validator_value ∧
    jsonGet (formatIssue e) "invalid_value" = some e.inst :=
  ⟨rfl, rfl, rfl⟩

end ICV
